import Mathlib

/-!
Verification development for the tracefs TCP state-change eventer.

The definitions below are a shallow embedding of the Go sources:
byte slices become `List Char`, fallible functions return `Except Err`
or `Option`, and the recovered out-of-bounds panics of the tokenizer
become the explicit error `Err.panicErr`.
-/

deriving instance DecidableEq for Except

set_option maxRecDepth 100000

namespace TraceFS

/-- Byte-slice view of a Go string literal. -/
def chars (s : String) : List Char := s.data

/-- Errors of the parsing pipeline.  Each Go error value (or wrap context)
that the claims distinguish gets its own constructor.  `fuelExhausted` is a
modelling artifact of the tagged-field loop and is unreachable for the
initial fuel. -/
inductive Err where
  | unexpectedEOF
  | emptyField
  | fuelExhausted
  | panicErr
  | irrelevantEvent
  | pidConv
  | noSourcePort
  | sourcePortConv
  | noDestPort
  | destPortConv
  | noSourceAddr
  | sourceAddrConv
  | noDestAddr
  | destAddrConv
  | noOldState
  | oldStateCanon
  | noNewState
  | newStateCanon
  | unknownState
  deriving DecidableEq, Repr

/-- Decimal value of a digit list, as Go's strconv accumulates it. -/
def digitsVal (s : List Char) : Nat :=
  s.foldl (fun a c => a * 10 + (c.toNat - '0'.toNat)) 0

/-- Model of Go `strconv.ParseInt(s, 10, 64)`: optional sign, mandatory
digits, 64-bit signed range check.  `none` models a conversion error. -/
def parseInt64 (s : List Char) : Option Int :=
  match s with
  | [] => none
  | c :: rest =>
    let p := if c = '-' then (true, rest) else if c = '+' then (false, rest) else (false, s)
    if p.2 = [] then none
    else if p.2.all Char.isDigit then
      let v : Nat := digitsVal p.2
      if p.1 then
        if v ≤ 2 ^ 63 then some (-(v : Int)) else none
      else
        if v < 2 ^ 63 then some (v : Int) else none
    else none

/-- Model of Go `strconv.ParseUint(s, 10, 16)`: digits only, no sign,
16-bit range check. -/
def parseUint16 (s : List Char) : Option Nat :=
  if s = [] then none
  else if s.all Char.isDigit then
    let v := digitsVal s
    if v < 2 ^ 16 then some v else none
  else none

/-- An IPv4 address as four octets. -/
structure IPv4 where
  a : Nat
  b : Nat
  c : Nat
  d : Nat
  deriving DecidableEq, Repr

/-- One dotted-quad component: nonempty, at most three digits, value at
most 255 (Go `net` package `dtoi` plus the 255 bound). -/
def ipv4Field (p : List Char) : Option Nat :=
  if p ≠ [] ∧ p.length ≤ 3 ∧ p.all Char.isDigit then
    let v := digitsVal p
    if v ≤ 255 then some v else none
  else none

/-- Model of Go `net.ParseIP` restricted to dotted-quad IPv4, the address
form the tracepoint emits in `saddr`/`daddr`.  `none` models the nil
return of `net.ParseIP`. -/
def parseIPv4 (s : List Char) : Option IPv4 :=
  match s.splitOn '.' with
  | [p1, p2, p3, p4] =>
    match ipv4Field p1, ipv4Field p2, ipv4Field p3, ipv4Field p4 with
    | some a, some b, some c, some d => some ⟨a, b, c, d⟩
    | _, _, _, _ => none
  | _ => none

/-- Model of Go `bytes.Index`: index of the first occurrence of `pat`
in `s`, `none` when absent (Go returns -1). -/
def bytesIndex (s pat : List Char) : Option Nat :=
  if pat.isPrefixOf s then some 0
  else
    match s with
    | [] => none
    | _ :: t => (bytesIndex t pat).map (· + 1)

/-- First-match association lookup.  The tagged-field accumulator conses
new entries at the head, so first-match equals the overwrite semantics of
a Go map. -/
def assocLookup {α β : Type} [DecidableEq α] : List (α × β) → α → Option β
  | [], _ => none
  | (k, v) :: rest, key => if k = key then some v else assocLookup rest key

/-- The closed canonical TCP state enumeration of the typed event.
Modelled from the spec: the `tcpstate` package of `tcp-audit-common` is an
external collaborator not under src/; the spec lists this closed
enumeration of canonical hyphenated names. -/
inductive TCPState where
  | closed
  | listen
  | synSent
  | synReceived
  | established
  | finWait1
  | finWait2
  | closeWait
  | closing
  | lastAck
  | timeWait
  deriving DecidableEq, Repr

/-- Canonical name of each state, as validated by `tcpstate.FromString`. -/
def stateTable : List (List Char × TCPState) :=
  [(chars "CLOSED", .closed),
   (chars "LISTEN", .listen),
   (chars "SYN-SENT", .synSent),
   (chars "SYN-RECEIVED", .synReceived),
   (chars "ESTABLISHED", .established),
   (chars "FIN-WAIT-1", .finWait1),
   (chars "FIN-WAIT-2", .finWait2),
   (chars "CLOSE-WAIT", .closeWait),
   (chars "CLOSING", .closing),
   (chars "LAST-ACK", .lastAck),
   (chars "TIME-WAIT", .timeWait)]

/-- The canonical names themselves (the keys of `stateTable`). -/
def canonicalNames : List (List Char) := stateTable.map Prod.fst

/-- Modelled from the spec: `tcpstate.FromString` validates a canonical
name against the closed state enumeration, failing on anything else. -/
def stateFromString (s : List Char) : Except Err TCPState :=
  match assocLookup stateTable s with
  | some st => .ok st
  | none => .error .unknownState

/-- Canonical name of a state (inverse direction of `stateFromString`). -/
def stateToString : TCPState → List Char
  | .closed => chars "CLOSED"
  | .listen => chars "LISTEN"
  | .synSent => chars "SYN-SENT"
  | .synReceived => chars "SYN-RECEIVED"
  | .established => chars "ESTABLISHED"
  | .finWait1 => chars "FIN-WAIT-1"
  | .finWait2 => chars "FIN-WAIT-2"
  | .closeWait => chars "CLOSE-WAIT"
  | .closing => chars "CLOSING"
  | .lastAck => chars "LAST-ACK"
  | .timeWait => chars "TIME-WAIT"

/-- Go `strings.TrimPrefix(state, "TCP_")`. -/
def trimTCP (s : List Char) : List Char :=
  if (chars "TCP_").isPrefixOf s then s.drop 4 else s

/-- Go `strings.ReplaceAll(state, "_", "-")` (single-character pattern,
hence a pointwise map). -/
def replaceUnderscores (s : List Char) : List Char :=
  s.map fun c => if c = '_' then '-' else c

/-- The switch of `canonicaliseState` (event_parser.go): an explicit
exception table for the four kernel mnemonics that do not follow the
generic rule, otherwise strip the `TCP_` prefix and hyphenate. -/
def canonForm (s : List Char) : List Char :=
  if s = chars "TCP_CLOSE" then chars "CLOSED"
  else if s = chars "TCP_FIN_WAIT1" then chars "FIN-WAIT-1"
  else if s = chars "TCP_FIN_WAIT2" then chars "FIN-WAIT-2"
  else if s = chars "TCP_SYN_RECV" then chars "SYN-RECEIVED"
  else replaceUnderscores (trimTCP s)

/-- Function `canonicaliseState` of event_parser.go: canonicalize the raw kernel
mnemonic, then validate with `tcpstate.FromString`. -/
def canonicaliseState (s : List Char) : Except Err TCPState :=
  stateFromString (canonForm s)

/-- Modelled from the spec: the repository's `slicingFieldParser.nextField`
(field_parser.go is not under src/; only its tests and callers are).
Behaviour follows spec section 4.1: empty cursor fails with
`UnexpectedEndOfInput`; a found separator yields the token before its
first occurrence and advances the cursor past the entire separator, with
a zero-length token failing with `EmptyField`; an absent separator fails
with `UnexpectedEndOfInput` when more fields are expected, and otherwise
returns the whole remainder, consumes the cursor and signals end of
fields (the `Bool` component, Go's `io.EOF` used as a signal). -/
def nextField (s sep : List Char) (expectMoreFields : Bool) :
    Except Err (List Char × List Char × Bool) :=
  if s = [] then .error .unexpectedEOF
  else
    match bytesIndex s sep with
    | none =>
      if expectMoreFields then .error .unexpectedEOF
      else .ok (s, [], true)
    | some idx =>
      let field := s.take idx
      if field = [] then .error .emptyField
      else .ok (field, s.drop (idx + sep.length), false)

/-- Loop body of `getTaggedFields`: read a tag up to `=` (more fields
mandatory), then a value up to a space (possibly the last field),
accumulate, stop on the end-of-fields signal.  The fuel argument models
the Go for-loop; the initial fuel `s.length + 1` can never run out
because every iteration consumes at least one cursor byte. -/
def getTaggedFieldsAux (fuel : Nat) (fields : List (List Char × List Char))
    (s : List Char) : Except Err (List (List Char × List Char)) :=
  match fuel with
  | 0 => .error .fuelExhausted
  | fuel + 1 =>
    match nextField s (chars "=") true with
    | .error e => .error e
    | .ok (tag, s1, _) =>
      match nextField s1 (chars " ") false with
      | .error e => .error e
      | .ok (val, s2, atEnd) =>
        if atEnd then .ok ((tag, val) :: fields)
        else getTaggedFieldsAux fuel ((tag, val) :: fields) s2

/-- Modelled from the spec: `slicingFieldParser.getTaggedFields`
(field_parser.go is not under src/): accumulate `tag=value` pairs until
the value read signals end of fields, propagating any tokenizer error. -/
def getTaggedFields (s : List Char) : Except Err (List (List Char × List Char)) :=
  getTaggedFieldsAux (s.length + 1) [] s

/-- The backward dash scan of `parseCommand` (event_parser.go): from
index `i` step left until a dash is found or index 0 is reached. -/
def dashScanAux (s : List Char) : Nat → Nat
  | 0 => 0
  | i + 1 => if s.getD (i + 1) ' ' = '-' then i + 1 else dashScanAux s i

/-- Function `parseCommand` of event_parser.go: locate the first `": "`, scan
backward to the nearest dash (the command may itself contain dashes),
fail with `UnexpectedEndOfInput` when either is missing, and strip the
leading padding spaces of the command.  A command consisting solely of
spaces makes the Go strip loop index out of range; the recovered panic
becomes `Err.panicErr`. -/
def parseCommand (s : List Char) : Except Err (List Char × List Char) :=
  match bytesIndex s (chars ": ") with
  | none => .error .unexpectedEOF
  | some i =>
    let j := dashScanAux s i
    if j = 0 then .error .unexpectedEOF
    else
      let cmd := s.take j
      if cmd.all (· = ' ') then .error .panicErr
      else .ok (cmd.dropWhile (· = ' '), s.drop (j + 1))

/-- The typed event (event_parser.go).  The capture timestamp is taken
at parse time in the source and carries no information about the input,
so it is omitted here. -/
structure Event where
  commandOnCPU : List Char
  pidOnCPU : Int
  sourceIP : IPv4
  destIP : IPv4
  sourcePort : Nat
  destPort : Nat
  oldState : TCPState
  newState : TCPState
  deriving DecidableEq, Repr

/-- Mandatory tag extraction of `toEvent` (event_parser.go): `sport`,
`dport` as 16-bit integers, `saddr`, `daddr` as IP addresses, `oldstate`,
`newstate` canonicalised; each missing or malformed tag fails with its
own named error. -/
def parseMandatoryTags (command : List Char) (pid : Int)
    (tags : List (List Char × List Char)) : Except Err Event :=
  match assocLookup tags (chars "sport") with
  | none => .error .noSourcePort
  | some sp =>
  match parseUint16 sp with
  | none => .error .sourcePortConv
  | some sourcePort =>
  match assocLookup tags (chars "dport") with
  | none => .error .noDestPort
  | some dp =>
  match parseUint16 dp with
  | none => .error .destPortConv
  | some destPort =>
  match assocLookup tags (chars "saddr") with
  | none => .error .noSourceAddr
  | some sa =>
  match parseIPv4 sa with
  | none => .error .sourceAddrConv
  | some sourceIP =>
  match assocLookup tags (chars "daddr") with
  | none => .error .noDestAddr
  | some da =>
  match parseIPv4 da with
  | none => .error .destAddrConv
  | some destIP =>
  match assocLookup tags (chars "oldstate") with
  | none => .error .noOldState
  | some os =>
  match canonicaliseState os with
  | .error _ => .error .oldStateCanon
  | .ok oldState =>
  match assocLookup tags (chars "newstate") with
  | none => .error .noNewState
  | some ns =>
  match canonicaliseState ns with
  | .error _ => .error .newStateCanon
  | .ok newState =>
  .ok { commandOnCPU := command, pidOnCPU := pid,
        sourceIP := sourceIP, destIP := destIP,
        sourcePort := sourcePort, destPort := destPort,
        oldState := oldState, newState := newState }

/-- Protocol classification of `toEvent`: a present `protocol` tag other
than `IPPROTO_TCP` is the irrelevant-event sentinel; absence is normal. -/
def checkProtocolTag (command : List Char) (pid : Int)
    (tags : List (List Char × List Char)) : Except Err Event :=
  match assocLookup tags (chars "protocol") with
  | some p =>
    if p = chars "IPPROTO_TCP" then parseMandatoryTags command pid tags
    else .error .irrelevantEvent
  | none => parseMandatoryTags command pid tags

/-- Family then protocol classification of `toEvent` (event_parser.go):
a present `family` tag other than `AF_INET` is the irrelevant-event
sentinel; absence is normal (older tcp_set_state tracepoint). -/
def processTags (command : List Char) (pid : Int)
    (tags : List (List Char × List Char)) : Except Err Event :=
  match assocLookup tags (chars "family") with
  | some f =>
    if f = chars "AF_INET" then checkProtocolTag command pid tags
    else .error .irrelevantEvent
  | none => checkProtocolTag command pid tags

/-- The front half of `toEvent` (event_parser.go): command, PID, two
skipped `": "`-delimited metadata fields, then the tagged fields. -/
def preprocessEvent (s : List Char) :
    Except Err (List Char × Int × List (List Char × List Char)) :=
  match parseCommand s with
  | .error e => .error e
  | .ok (command, s1) =>
  match nextField s1 (chars " ") true with
  | .error e => .error e
  | .ok (pidStr, s2, _) =>
  match parseInt64 pidStr with
  | none => .error .pidConv
  | some pid =>
  match nextField s2 (chars ": ") true with
  | .error e => .error e
  | .ok (_, s3, _) =>
  match nextField s3 (chars ": ") true with
  | .error e => .error e
  | .ok (_, s4, _) =>
  match getTaggedFields s4 with
  | .error e => .error e
  | .ok tags => .ok (command, pid, tags)

/-- Method `traceFSEventParser.toEvent` (event_parser.go): tokenize the raw
line, classify it and extract the mandatory tags into a typed event. -/
def toEvent (s : List Char) : Except Err Event :=
  match preprocessEvent s with
  | .error e => .error e
  | .ok (command, pid, tags) => processTags command pid tags

/-! ### Tracing-instance lifecycle (tracing_instance.go) -/

/-- Filesystem error kinds distinguished by `traceFSTracingInstance`:
`os.IsExist` versus everything else. -/
inductive FSErr where
  | exist
  | permission
  deriving DecidableEq, Repr

/-- Abstract pseudo-filesystem state: existing directories, file contents
(first match wins, newest writes are consed at the head) and a set of
paths on which writes fail, to model I/O errors. -/
structure FS where
  dirs : List (List Char)
  files : List (List Char × List Char)
  writeProtected : List (List Char)

/-- Model of `os.Mkdir`: fails with the `exist` error when the directory
is already present. -/
def fsMkdir (fs : FS) (p : List Char) : FS × Option FSErr :=
  if p ∈ fs.dirs then (fs, some .exist)
  else ({ fs with dirs := p :: fs.dirs }, none)

/-- Model of `ioutil.WriteFile`: fails on write-protected paths,
otherwise records the new content. -/
def fsWriteFile (fs : FS) (p c : List Char) : FS × Option FSErr :=
  if p ∈ fs.writeProtected then (fs, some .permission)
  else ({ fs with files := (p, c) :: fs.files }, none)

/-- Content of a file in the modelled filesystem. -/
def fsReadFile (fs : FS) (p : List Char) : Option (List Char) :=
  assocLookup fs.files p

/-- Failures of `traceFSTracingInstance.enable`, one per failing step. -/
inductive EnableErr where
  | mountpoint
  | tracepoint
  | mkdirFailed
  | enableTracePointFailed
  | tracingOnFailed
  deriving DecidableEq, Repr

/-- The injected collaborators of `traceFSTracingInstance`: mountpoint
retriever and tracepoint deducer results (`none` models their errors)
and the UID provider's unique name. -/
structure Collab where
  mountpointRes : Option (List Char)
  tracepointRes : Option (List Char)
  uid : List Char

/-- Method `traceFSTracingInstance.enableTracePoint`: write `1\n` to the
tracepoint's `enable` pseudo-file. -/
def enableTracePointStep (fs : FS) (path tracepoint : List Char) :
    Except EnableErr FS :=
  match fsWriteFile fs (path ++ chars "/events/" ++ tracepoint ++ chars "/enable") (chars "1\n") with
  | (_, some _) => .error .enableTracePointFailed
  | (fs1, none) => .ok fs1

/-- Method `traceFSTracingInstance.enableTracing`: write `1\n` to the
instance's `tracing_on` pseudo-file. -/
def enableTracingStep (fs : FS) (path : List Char) : Except EnableErr FS :=
  match fsWriteFile fs (path ++ chars "/tracing_on") (chars "1\n") with
  | (_, some _) => .error .tracingOnFailed
  | (fs1, none) => .ok fs1

/-- Method `traceFSTracingInstance.enable` (tracing_instance.go): resolve the
mountpoint and tracepoint, create the instance directory (an error is
fatal only when it is not the already-exists error), enable the
tracepoint, then turn tracing on.  On success, returns the new
filesystem and the instance path. -/
def instanceEnable (collab : Collab) (fs : FS) :
    Except EnableErr (FS × List Char) :=
  match collab.mountpointRes with
  | none => .error .mountpoint
  | some mountpoint =>
  match collab.tracepointRes with
  | none => .error .tracepoint
  | some tracepoint =>
    let path := mountpoint ++ chars "/instances/" ++ collab.uid
    let r := fsMkdir fs path
    if r.2 ≠ none ∧ r.2 ≠ some .exist then .error .mkdirFailed
    else
      match enableTracePointStep r.1 path tracepoint with
      | .error e1 => .error e1
      | .ok fs2 =>
        match enableTracingStep fs2 path with
        | .error e2 => .error e2
        | .ok fs3 => .ok (fs3, path)

/-! ### The old flat eventer of src/main.go

The claims C5, C6, C8 and C9 cite src/main.go, the single-file
generation of the program, whose field parser and eventer differ from
the refactored parser above (no empty-token check, one-byte separator
advance, unconsumed final token, a nil irrelevant-event sentinel and a
mutex that stays locked on the closed path).  The definitions below
embed that file as written. -/

/-- Backward dash scan of `parseCommand` (main.go:403-420): the largest
index strictly below `i` holding a dash, `none` when there is none (the
Go loop then runs past index 0 into a recovered negative-index panic). -/
def lastDashBelow (s : List Char) : Nat → Option Nat
  | 0 => none
  | n + 1 => if s.getD n ' ' = '-' then some n else lastDashBelow s n

/-- Function `parseCommand` of main.go (403-420): start one byte before the
first `": "` and scan backward to a dash, with no bounds checks — a
missing `": "` (index -2), a `": "` at index 0 (index -1), a missing
dash (scan below index 0) and an empty or all-space command (strip loop
overrun) all panic and are recovered by `panicToErr` as errors. -/
def mainParseCommand (s : List Char) : Except Err (List Char × List Char) :=
  match bytesIndex s (chars ": ") with
  | none => .error .panicErr
  | some i =>
    match lastDashBelow s i with
    | none => .error .panicErr
    | some k =>
      let cmd := s.take k
      if cmd.all (· = ' ') then .error .panicErr
      else .ok (cmd.dropWhile (· = ' '), s.drop (k + 1))

/-- Function `nextField` of main.go (422-440): no empty-token check and no
empty-cursor check; a found separator advances the cursor exactly one
byte past its start (`str[idx+1:]`), whatever the separator length (the
guard models the slicing panic when that one byte does not exist, which
needs an empty separator); a missing separator with more fields expected
fails, otherwise the whole remainder is the final token, the cursor is
left untouched, and `io.EOF` is signalled (the `Bool` component). -/
def mainNextField (s sep : List Char) (expectMoreFields : Bool) :
    Except Err (List Char × List Char × Bool) :=
  match bytesIndex s sep with
  | none =>
    if expectMoreFields then .error .unexpectedEOF
    else .ok (s, s, true)
  | some idx =>
    if idx + 1 ≤ s.length then .ok (s.take idx, s.drop (idx + 1), false)
    else .error .panicErr

/-- Function `skipField` of main.go (442-449): drop everything up to and
including the separator; when the separator is missing (`idx = -1`) the
code slices from `len(sep) - 1`, silently dropping bytes, and panics
(recovered) only when even that start is past the end. -/
def mainSkipField (s sep : List Char) : Except Err (List Char) :=
  match bytesIndex s sep with
  | none =>
    if sep.length - 1 ≤ s.length then .ok (s.drop (sep.length - 1))
    else .error .panicErr
  | some idx => .ok (s.drop (idx + sep.length))

/-- Loop body of main.go `getTaggedFields` (451-472) over `mainNextField`:
a zero-length value is recorded in the map, not rejected.  Fuel as in
`getTaggedFieldsAux`; the initial fuel cannot run out because every
continuing iteration consumes cursor bytes. -/
def mainGetTaggedFieldsAux (fuel : Nat) (fields : List (List Char × List Char))
    (s : List Char) : Except Err (List (List Char × List Char)) :=
  match fuel with
  | 0 => .error .fuelExhausted
  | fuel + 1 =>
    match mainNextField s (chars "=") true with
    | .error e => .error e
    | .ok (tag, s1, _) =>
      match mainNextField s1 (chars " ") false with
      | .error e => .error e
      | .ok (val, s2, atEnd) =>
        if atEnd then .ok ((tag, val) :: fields)
        else mainGetTaggedFieldsAux fuel ((tag, val) :: fields) s2

/-- Function `getTaggedFields` of main.go (451-472). -/
def mainGetTaggedFields (s : List Char) :
    Except Err (List (List Char × List Char)) :=
  mainGetTaggedFieldsAux (s.length + 1) [] s

/-- Front half of main.go `toEvent` (281-310): command, PID, two skipped
`": "` metadata fields (via `skipField`), then the tagged fields. -/
def mainPreprocess (s : List Char) :
    Except Err (List Char × Int × List (List Char × List Char)) :=
  match mainParseCommand s with
  | .error e => .error e
  | .ok (command, s1) =>
  match mainNextField s1 (chars " ") true with
  | .error e => .error e
  | .ok (pidStr, s2, _) =>
  match parseInt64 pidStr with
  | none => .error .pidConv
  | some pid =>
  match mainSkipField s2 (chars ": ") with
  | .error e => .error e
  | .ok s3 =>
  match mainSkipField s3 (chars ": ") with
  | .error e => .error e
  | .ok s4 =>
  match mainGetTaggedFields s4 with
  | .error e => .error e
  | .ok tags => .ok (command, pid, tags)

/-- Result of a Go `(*event.Event, error)` pair of main.go: the event
(nil as `none`) and the error (nil as `none`).  `(none, none)` is what
`return nil, errIrrelevantEvent` produces, because main.go:28 declares
`var errIrrelevantEvent error` with no initializer — the sentinel is
nil. -/
def mainMandatory (command : List Char) (pid : Int)
    (tags : List (List Char × List Char)) : Option Event × Option Err :=
  match parseMandatoryTags command pid tags with
  | .error e => (none, some e)
  | .ok ev => (some ev, none)

/-- Protocol classification of main.go `toEvent` (319-324): a present
non-TCP protocol returns the nil sentinel, i.e. a nil event with a nil
error. -/
def mainCheckProtocol (command : List Char) (pid : Int)
    (tags : List (List Char × List Char)) : Option Event × Option Err :=
  match assocLookup tags (chars "protocol") with
  | some p =>
    if p = chars "IPPROTO_TCP" then mainMandatory command pid tags
    else (none, none)
  | none => mainMandatory command pid tags

/-- Function `toEvent` of main.go (281-401): like the refactored parser but
over the main.go tokenizer, and returning `(nil, nil)` — no event, no
error — for a non-inet family or non-TCP protocol, since the
irrelevant-event sentinel of main.go:28 is nil. -/
def mainToEvent (s : List Char) : Option Event × Option Err :=
  match mainPreprocess s with
  | .error e => (none, some e)
  | .ok (command, pid, tags) =>
    match assocLookup tags (chars "family") with
    | some f =>
      if f = chars "AF_INET" then mainCheckProtocol command pid tags
      else (none, none)
    | none => mainCheckProtocol command pid tags

/-- Outcomes of `Eventer.Event` distinguished by the claims. -/
inductive EvErr where
  | closedEventer
  | scanError
  | unexpectedEOF
  | parseError (e : Err)
  deriving DecidableEq, Repr

/-- What one call of main.go `Eventer.Event` does: block forever
acquiring `closedMutex`, or return a `(*event.Event, error)` pair (the
event is `none` when Go returns a nil event). -/
inductive EvOutcome where
  | blocked
  | res (r : Except EvErr (Option Event))
  deriving DecidableEq

/-- State of the main.go `Eventer` as one sequential caller observes
it: the closed flag, whether `closedMutex` is currently held, the
remaining lines the scanner will yield, and whether the scanner reports
an error once they are exhausted (`false` is a clean end of stream). -/
structure MEventer where
  closed : Bool
  lockHeld : Bool
  lines : List (List Char)
  scanErr : Bool

/-- Read loop of main.go `Eventer.Event` (112-144): empty lines are
skipped; a line whose parse returns a non-nil error surfaces it (the
`err == errIrrelevantEvent` skip branch at line 136 is dead code, since
the sentinel is nil and the branch sits inside `err != nil`); a line
whose parse returns a nil error is returned as the event — including a
nil event from an irrelevant line.  At exhaustion, a scanner error is a
scan error (or the closed sentinel if the eventer was closed, a path a
sequential caller cannot reach), and a clean end of stream is the
unexpected-EOF anomaly. -/
def mainEventLoop (closed scanErr : Bool) :
    List (List Char) → Except EvErr (Option Event)
  | [] =>
    if scanErr then
      if closed then .error .closedEventer else .error .scanError
    else .error .unexpectedEOF
  | l :: rest =>
    if l = [] then mainEventLoop closed scanErr rest
    else
      match mainToEvent l with
      | (ev, none) => .ok ev
      | (_, some e) => .error (.parseError e)

/-- Method `Eventer.Event` of main.go (103-145): acquire `closedMutex` (a
second acquisition while it is held blocks forever); if the eventer is
closed, return the closed sentinel — main.go:105-107 returns without
`Unlock`, so the mutex stays held; otherwise release the mutex
(main.go:108) and run the read loop.  The returned state carries the
lock effect. -/
def mainEventerEvent (st : MEventer) : MEventer × EvOutcome :=
  if st.lockHeld then (st, .blocked)
  else
    let st1 := { st with lockHeld := true }
    if st1.closed then (st1, .res (.error .closedEventer))
    else
      let st2 := { st1 with lockHeld := false }
      (st2, .res (mainEventLoop st2.closed st2.scanErr st2.lines))

/-- Method `Eventer.Close` of main.go (147-164), once completed: the
closed flag is set (the lock was acquired and released around it at
148-152; pipe close and instance cleanup are not observable here). -/
def mainEventerClose (st : MEventer) : MEventer :=
  { st with closed := true }

/-! ### Concrete trace lines used by the claims -/

/-- The end-to-end example line of the spec (claim C1). -/
def c1Line : List Char := chars "<idle>-0       [000] ..s.   995.318985: inet_sock_set_state: family=AF_INET protocol=IPPROTO_TCP sport=44406 dport=80 saddr=192.168.122.38 daddr=172.217.169.4 oldstate=TCP_SYN_SENT newstate=TCP_ESTABLISHED"

/-- The non-inet family line of the parser tests. -/
def afUnixLine : List Char := chars "<idle>-0       [000] ..s.   995.318985: inet_sock_set_state: family=AF_UNIX"

/-! ### Helper lemmas -/

/-- Soundness of `bytesIndex`: a reported index carries an occurrence. -/
lemma bytesIndex_prefix (pat : List Char) :
    ∀ (s : List Char) (i : Nat), bytesIndex s pat = some i →
      pat.isPrefixOf (s.drop i) = true := by
  intro s
  induction s with
  | nil =>
    intro i h
    by_cases hp : pat.isPrefixOf ([] : List Char) = true
    · simp only [bytesIndex, hp, if_pos, Option.some.injEq] at h
      subst h
      simpa using hp
    · simp [bytesIndex, hp] at h
  | cons c t ih =>
    intro i h
    by_cases hp : pat.isPrefixOf (c :: t) = true
    · simp only [bytesIndex, hp, if_pos, Option.some.injEq] at h
      subst h
      simpa using hp
    · rw [bytesIndex, if_neg hp] at h
      cases hb : bytesIndex t pat with
      | none => rw [hb] at h; simp at h
      | some i' =>
        rw [hb] at h
        simp only [Option.map_some', Option.some.injEq] at h
        subst h
        simpa using ih i' hb

/-- Completeness of `bytesIndex`: an occurrence at `i` with
none strictly earlier is reported. -/
lemma bytesIndex_of_first (pat : List Char) :
    ∀ (s : List Char) (i : Nat), pat.isPrefixOf (s.drop i) = true →
      (∀ j < i, pat.isPrefixOf (s.drop j) = false) →
      bytesIndex s pat = some i := by
  intro s
  induction s with
  | nil =>
    intro i h1 h2
    cases i with
    | zero =>
      simp only [List.drop_nil] at h1
      simp [bytesIndex, h1]
    | succ n =>
      have h0 := h2 0 (Nat.succ_pos n)
      simp only [List.drop_nil] at h1 h0
      rw [h1] at h0
      cases h0
  | cons c t ih =>
    intro i h1 h2
    cases i with
    | zero =>
      simp only [List.drop_zero] at h1
      simp [bytesIndex, h1]
    | succ n =>
      have h0 := h2 0 (Nat.succ_pos n)
      simp only [List.drop_zero] at h0
      have ht := ih n (by simpa using h1)
        (fun j hj => by simpa using h2 (j + 1) (Nat.succ_lt_succ hj))
      simp [bytesIndex, h0, ht]

/-- Absence for `bytesIndex`: no occurrence anywhere means no index. -/
lemma bytesIndex_eq_none (pat : List Char) (hp : pat ≠ []) :
    ∀ (s : List Char), (∀ j < s.length, pat.isPrefixOf (s.drop j) = false) →
      bytesIndex s pat = none := by
  intro s
  induction s with
  | nil =>
    intro _
    obtain ⟨c, pat', rfl⟩ := List.exists_cons_of_ne_nil hp
    simp [bytesIndex, List.isPrefixOf]
  | cons c t ih =>
    intro h
    have h0 := h 0 (by simp)
    simp only [List.drop_zero] at h0
    have ht := ih (fun j hj => by
      simpa using h (j + 1) (by simpa using Nat.succ_lt_succ hj))
    simp [bytesIndex, h0, ht]

/-- The backward dash scan returns 0 when no dash sits at a positive
index at or below the start index. -/
lemma dashScanAux_eq_zero (s : List Char) :
    ∀ i, (∀ j < i + 1, 0 < j → s.getD j ' ' ≠ '-') → dashScanAux s i = 0 := by
  intro i
  induction i with
  | zero => intro _; rfl
  | succ n ih =>
    intro h
    have hd := h (n + 1) (by omega) (by omega)
    rw [dashScanAux, if_neg hd]
    exact ih (fun j hj hj0 => h j (by omega) hj0)

/-- The backward dash scan returns the greatest positive dash index at
or below the start index. -/
lemma dashScanAux_eq (s : List Char) (k : Nat) (hk0 : 0 < k)
    (hd : s.getD k ' ' = '-') :
    ∀ i, k ≤ i → (∀ j < i + 1, k < j → s.getD j ' ' ≠ '-') →
      dashScanAux s i = k := by
  intro i
  induction i with
  | zero => intro hk _; omega
  | succ n ih =>
    intro hk hmax
    by_cases he : k = n + 1
    · subst he
      rw [dashScanAux, if_pos hd]
    · have hne : s.getD (n + 1) ' ' ≠ '-' := hmax (n + 1) (by omega) (by omega)
      rw [dashScanAux, if_neg hne]
      exact ih (by omega) (fun j hj hkj => hmax j (by omega) hkj)

/-- An association lookup succeeds exactly on the stored keys. -/
lemma assocLookup_isSome_iff {α β : Type} [DecidableEq α]
    (l : List (α × β)) (k : α) :
    (∃ v, assocLookup l k = some v) ↔ k ∈ l.map Prod.fst := by
  induction l with
  | nil => simp [assocLookup]
  | cons p t ih =>
    obtain ⟨a, b⟩ := p
    by_cases h : a = k
    · subst h
      simp [assocLookup]
    · simp [assocLookup, h, ih, Ne.symm h]

/-- Validation `stateFromString` succeeds exactly on the canonical names. -/
lemma stateFromString_ok_iff (x : List Char) :
    (∃ st, stateFromString x = .ok st) ↔ x ∈ canonicalNames := by
  rw [show canonicalNames = stateTable.map Prod.fst from rfl,
    ← assocLookup_isSome_iff stateTable x]
  unfold stateFromString
  cases hl : assocLookup stateTable x with
  | none => simp [hl]
  | some v => simp [hl]

/-! ### Claims -/

/-- C1, counterexample: on the spec's end-to-end example line the parser
does succeed, but the command it extracts is not `"idle"` (it is
`"<idle>"`; nothing in `parseCommand` strips the angle brackets the
kernel puts around the idle task's name). -/
theorem c1_counterexample :
    (toEvent c1Line).map Event.commandOnCPU ≠ .ok (chars "idle") := by
  decide

/-- C1, amended: for the spec's end-to-end example line, `toEvent`
succeeds and the returned event has commandOnCPU `"<idle>"`, pidOnCPU 0,
sourcePort 44406, destPort 80, sourceIP 192.168.122.38, destIP
172.217.169.4, oldState SYN-SENT and newState ESTABLISHED (the capture
timestamp is excluded from the comparison). -/
theorem c1_amended :
    toEvent c1Line = .ok
      { commandOnCPU := chars "<idle>", pidOnCPU := 0,
        sourceIP := ⟨192, 168, 122, 38⟩, destIP := ⟨172, 217, 169, 4⟩,
        sourcePort := 44406, destPort := 80,
        oldState := .synSent, newState := .established } := by
  decide

/-- C2: `canonicaliseState` maps the four exceptional kernel names
exactly as TCP_CLOSE→CLOSED, TCP_FIN_WAIT1→FIN-WAIT-1,
TCP_FIN_WAIT2→FIN-WAIT-2 and TCP_SYN_RECV→SYN-RECEIVED, maps every other
input by stripping a leading `TCP_` prefix and replacing underscores
with hyphens, succeeds if and only if the resulting string is a member
of the closed canonical state enumeration, and fails on the unmapped
mnemonic FOO_BAR. -/
theorem c2_canonicalise (s : List Char) :
    canonicaliseState (chars "TCP_CLOSE") = .ok .closed
    ∧ canonicaliseState (chars "TCP_FIN_WAIT1") = .ok .finWait1
    ∧ canonicaliseState (chars "TCP_FIN_WAIT2") = .ok .finWait2
    ∧ canonicaliseState (chars "TCP_SYN_RECV") = .ok .synReceived
    ∧ (s ≠ chars "TCP_CLOSE" → s ≠ chars "TCP_FIN_WAIT1" →
        s ≠ chars "TCP_FIN_WAIT2" → s ≠ chars "TCP_SYN_RECV" →
        canonicaliseState s = stateFromString (replaceUnderscores (trimTCP s)))
    ∧ ((∃ st, canonicaliseState s = .ok st) ↔ canonForm s ∈ canonicalNames)
    ∧ canonicaliseState (chars "FOO_BAR") = .error .unknownState := by
  refine ⟨by decide, by decide, by decide, by decide, ?_, ?_, by decide⟩
  · intro h1 h2 h3 h4
    simp [canonicaliseState, canonForm, h1, h2, h3, h4]
  · simpa [canonicaliseState] using stateFromString_ok_iff (canonForm s)

/-- C2 witness: the generic rule applied to a non-exceptional mnemonic. -/
theorem c2_witness :
    canonicaliseState (chars "TCP_LISTEN") =
      stateFromString (replaceUnderscores (trimTCP (chars "TCP_LISTEN"))) :=
  (c2_canonicalise (chars "TCP_LISTEN")).2.2.2.2.1
    (by decide) (by decide) (by decide) (by decide)

/-- C10: `canonicaliseState` is idempotent on its successful results:
whenever it maps some input to a canonical state, it maps that state's
own name back to the same state. -/
theorem c10_idempotent (s : List Char) (st : TCPState)
    (h : canonicaliseState s = .ok st) :
    canonicaliseState (stateToString st) = .ok st := by
  cases st <;> decide

/-- C10 witness: TCP_ESTABLISHED canonicalises to ESTABLISHED, which
canonicalises to itself. -/
theorem c10_witness :
    canonicaliseState (stateToString TCPState.established) =
      .ok TCPState.established :=
  c10_idempotent (chars "TCP_ESTABLISHED") TCPState.established (by decide)

/-- C4: the command extracted by `parseCommand` is the text preceding
the last dash that occurs before the first `": "` in the line, with
leading padding spaces stripped (so a command containing dashes is
returned intact); a line containing no `": "`, or no dash at a positive
index before its first `": "`, fails with `UnexpectedEndOfInput`.  Here
`i` is the first `": "` position and `k` the last dash position at or
below it. -/
theorem c4_parse_command (s : List Char) (i k : Nat) :
    ((∀ j < s.length, (chars ": ").isPrefixOf (s.drop j) = false) →
      parseCommand s = .error .unexpectedEOF)
    ∧ ((chars ": ").isPrefixOf (s.drop i) = true →
      (∀ j < i, (chars ": ").isPrefixOf (s.drop j) = false) →
      (∀ j < i + 1, 0 < j → s.getD j ' ' ≠ '-') →
      parseCommand s = .error .unexpectedEOF)
    ∧ ((chars ": ").isPrefixOf (s.drop i) = true →
      (∀ j < i, (chars ": ").isPrefixOf (s.drop j) = false) →
      0 < k → k ≤ i → s.getD k ' ' = '-' →
      (∀ j < i + 1, k < j → s.getD j ' ' ≠ '-') →
      (s.take k).all (· = ' ') = false →
      parseCommand s = .ok ((s.take k).dropWhile (· = ' '), s.drop (k + 1))) := by
  refine ⟨?_, ?_, ?_⟩
  · intro h
    have hb := bytesIndex_eq_none (chars ": ") (by decide) s h
    rw [parseCommand, hb]
  · intro h1 h2 h3
    have hb := bytesIndex_of_first (chars ": ") s i h1 h2
    have hd := dashScanAux_eq_zero s i h3
    rw [parseCommand, hb]
    simp [hd]
  · intro h1 h2 hk0 hki hd hmax hsp
    have hb := bytesIndex_of_first (chars ": ") s i h1 h2
    have hds := dashScanAux_eq s k hk0 hd i hki hmax
    rw [parseCommand, hb]
    simp [hds, Nat.pos_iff_ne_zero.mp hk0, hsp]

/-- C4 witness: a command that itself contains a dash is returned
intact, delimited by the last dash before the first `": "`. -/
theorem c4_witness :
    parseCommand (chars "ab-cd-7: x") = .ok (chars "ab-cd", chars "7: x") :=
  (c4_parse_command (chars "ab-cd-7: x") 7 5).2.2
    (by decide) (by decide) (by decide) (by decide)
    (by decide) (by decide) (by decide)

/-- C3: whenever the front half of `toEvent` succeeds (command, PID,
skipped metadata, tagged fields), a `family` tag present with a value
other than AF_INET, or a `protocol` tag present with a value other than
IPPROTO_TCP, makes `toEvent` return exactly the distinguished
irrelevant-event sentinel; and when both tags are absent, `toEvent` is
exactly the mandatory-tag processing, so the absence alone never makes
it fail. -/
theorem c3_classification (s command : List Char) (pid : Int)
    (tags : List (List Char × List Char)) (f p : List Char) :
    (preprocessEvent s = .ok (command, pid, tags) →
      ((assocLookup tags (chars "family") = some f ∧ f ≠ chars "AF_INET") ∨
       (assocLookup tags (chars "protocol") = some p ∧ p ≠ chars "IPPROTO_TCP")) →
      toEvent s = .error .irrelevantEvent)
    ∧ (preprocessEvent s = .ok (command, pid, tags) →
      assocLookup tags (chars "family") = none →
      assocLookup tags (chars "protocol") = none →
      toEvent s = parseMandatoryTags command pid tags) := by
  constructor
  · intro hpre hcase
    rw [toEvent, hpre]
    rcases hcase with ⟨hf, hfne⟩ | ⟨hp, hpne⟩
    · simp [processTags, hf, hfne]
    · unfold processTags
      cases hfl : assocLookup tags (chars "family") with
      | none => simp [hfl, checkProtocolTag, hp, hpne]
      | some g =>
        by_cases hg : g = chars "AF_INET"
        · simp [hfl, hg, checkProtocolTag, hp, hpne]
        · simp [hfl, hg]
  · intro hpre hf hp
    rw [toEvent, hpre]
    simp [processTags, checkProtocolTag, hf, hp]

/-- C3 witness: the parser-test line with family AF_UNIX yields the
sentinel, not a generic error. -/
theorem c3_witness : toEvent afUnixLine = .error .irrelevantEvent :=
  (c3_classification afUnixLine (chars "<idle>") 0
      [(chars "family", chars "AF_UNIX")] (chars "AF_UNIX") []).1
    (by decide) (Or.inl ⟨by decide, by decide⟩)

/-- Directory creation `fsMkdir` never touches the file contents. -/
lemma fsMkdir_files (fs : FS) (p : List Char) :
    ((fsMkdir fs p).1).files = fs.files := by
  unfold fsMkdir
  split <;> rfl

/-- Directory creation `fsMkdir` never touches the write protections. -/
lemma fsMkdir_wp (fs : FS) (p : List Char) :
    ((fsMkdir fs p).1).writeProtected = fs.writeProtected := by
  unfold fsMkdir
  split <;> rfl

/-- The only `mkdir` error of the model is the already-exists error, so
the fatality guard of `enable` is never taken. -/
lemma fsMkdir_guard (fs : FS) (p : List Char) :
    ¬((fsMkdir fs p).2 ≠ none ∧ (fsMkdir fs p).2 ≠ some FSErr.exist) := by
  unfold fsMkdir
  split <;> simp

/-- Unfolding equation of `assocLookup` on a cons cell. -/
lemma assocLookup_cons {α β : Type} [DecidableEq α] (k key : α) (v : β)
    (rest : List (α × β)) :
    assocLookup ((k, v) :: rest) key
      = if k = key then some v else assocLookup rest key := rfl

/-- The `tracing_on` path and the tracepoint `enable` path of one
instance are distinct. -/
lemma tracing_ne_enable (p tp : List Char) :
    p ++ chars "/tracing_on" ≠ p ++ chars "/events/" ++ tp ++ chars "/enable" := by
  intro h
  rw [List.append_assoc, List.append_assoc] at h
  have h2 := List.append_cancel_left h
  rw [show chars "/tracing_on" = '/' :: 't' :: chars "racing_on" from rfl,
    show chars "/events/" = '/' :: 'e' :: chars "vents/" from rfl,
    List.cons_append, List.cons_append] at h2
  injection h2 with ha hb
  injection hb with hc hd
  exact absurd hc (by decide)

/-- A successful tracepoint-enable step is exactly the recording of
`1\n` under the tracepoint's `enable` path. -/
lemma enableTracePointStep_ok (fs fs2 : FS) (path tp : List Char)
    (h : enableTracePointStep fs path tp = .ok fs2) :
    fs2 = { fs with
            files := (path ++ chars "/events/" ++ tp ++ chars "/enable", chars "1\n")
              :: fs.files } := by
  unfold enableTracePointStep fsWriteFile at h
  split at h
  · exact absurd h (by simp)
  · rename_i f heq
    split at heq
    · exact absurd heq (by simp)
    · simp only [Prod.mk.injEq] at heq
      simp only [Except.ok.injEq] at h
      rw [← h, ← heq.1]

/-- A successful tracing-on step is exactly the recording of `1\n`
under the instance's `tracing_on` path. -/
lemma enableTracingStep_ok (fs fs2 : FS) (path : List Char)
    (h : enableTracingStep fs path = .ok fs2) :
    fs2 = { fs with
            files := (path ++ chars "/tracing_on", chars "1\n") :: fs.files } := by
  unfold enableTracingStep fsWriteFile at h
  split at h
  · exact absurd h (by simp)
  · rename_i f heq
    split at heq
    · exact absurd heq (by simp)
    · simp only [Prod.mk.injEq] at heq
      simp only [Except.ok.injEq] at h
      rw [← h, ← heq.1]

/-- The body of `instanceEnable` once the collaborators have answered:
the mkdir guard is never fatal. -/
lemma instanceEnable_eq (collab : Collab) (fs : FS) (mp tp : List Char)
    (hm : collab.mountpointRes = some mp)
    (ht : collab.tracepointRes = some tp) :
    instanceEnable collab fs =
      (match enableTracePointStep
          (fsMkdir fs (mp ++ chars "/instances/" ++ collab.uid)).1
          (mp ++ chars "/instances/" ++ collab.uid) tp with
       | .error e1 => .error e1
       | .ok fs2 =>
         match enableTracingStep fs2 (mp ++ chars "/instances/" ++ collab.uid) with
         | .error e2 => .error e2
         | .ok fs3 => .ok (fs3, mp ++ chars "/instances/" ++ collab.uid)) := by
  simp only [instanceEnable, hm, ht]
  rw [if_neg (fsMkdir_guard fs _)]

/-- C7: `enable` treats an already-existing instance directory as
non-fatal (with the collaborators answering and the two pseudo-files
writable, it succeeds even when the directory is already present), and
after every successful `enable` both the tracepoint's `enable`
pseudo-file and the instance's `tracing_on` pseudo-file contain `1\n`. -/
theorem c7_enable (collab : Collab) (fs : FS) (mp tp : List Char)
    (hm : collab.mountpointRes = some mp)
    (ht : collab.tracepointRes = some tp) :
    ((mp ++ chars "/instances/" ++ collab.uid) ∈ fs.dirs →
      (mp ++ chars "/instances/" ++ collab.uid ++ chars "/events/" ++ tp ++ chars "/enable")
        ∉ fs.writeProtected →
      (mp ++ chars "/instances/" ++ collab.uid ++ chars "/tracing_on")
        ∉ fs.writeProtected →
      (instanceEnable collab fs).isOk = true)
    ∧ (∀ fs1 p, instanceEnable collab fs = .ok (fs1, p) →
        fsReadFile fs1 (p ++ chars "/events/" ++ tp ++ chars "/enable")
          = some (chars "1\n")
        ∧ fsReadFile fs1 (p ++ chars "/tracing_on") = some (chars "1\n")) := by
  constructor
  · intro _ hw1 hw2
    have he1 : ∃ fs2, enableTracePointStep
        (fsMkdir fs (mp ++ chars "/instances/" ++ collab.uid)).1
        (mp ++ chars "/instances/" ++ collab.uid) tp = .ok fs2
        ∧ fs2.writeProtected = fs.writeProtected := by
      unfold enableTracePointStep fsWriteFile
      rw [fsMkdir_wp, if_neg hw1]
      exact ⟨_, rfl, rfl⟩
    obtain ⟨fs2, he1, hwp⟩ := he1
    have he2 : ∃ fs3,
        enableTracingStep fs2 (mp ++ chars "/instances/" ++ collab.uid) = .ok fs3 := by
      unfold enableTracingStep fsWriteFile
      rw [hwp, if_neg hw2]
      exact ⟨_, rfl⟩
    obtain ⟨fs3, he2⟩ := he2
    rw [instanceEnable_eq collab fs mp tp hm ht]
    simp only [he1, he2]
    rfl
  · intro fs1 p hok
    rw [instanceEnable_eq collab fs mp tp hm ht] at hok
    cases he1 : enableTracePointStep
        (fsMkdir fs (mp ++ chars "/instances/" ++ collab.uid)).1
        (mp ++ chars "/instances/" ++ collab.uid) tp with
    | error e =>
      simp only [he1] at hok
      exact absurd hok (by simp)
    | ok fs2 =>
      cases he2 : enableTracingStep fs2 (mp ++ chars "/instances/" ++ collab.uid) with
      | error e =>
        simp only [he1, he2] at hok
        exact absurd hok (by simp)
      | ok fs3 =>
        simp only [he1, he2, Except.ok.injEq, Prod.mk.injEq] at hok
        obtain ⟨rfl, rfl⟩ := hok
        rw [enableTracingStep_ok fs2 fs3 _ he2,
          enableTracePointStep_ok _ fs2 _ tp he1]
        constructor
        · unfold fsReadFile
          simp only [assocLookup_cons]
          rw [if_neg (tracing_ne_enable
            (mp ++ chars "/instances/" ++ collab.uid) tp)]
          simp
        · unfold fsReadFile
          simp only [assocLookup_cons]
          simp

/-- C7 witness: enabling with the instance directory already present
still succeeds. -/
theorem c7_witness :
    (instanceEnable
        ⟨some (chars "/t"), some (chars "sock/inet_sock_set_state"), chars "tcp-audit-x"⟩
        ⟨[chars "/t/instances/tcp-audit-x"], [], []⟩).isOk = true :=
  (c7_enable
      ⟨some (chars "/t"), some (chars "sock/inet_sock_set_state"), chars "tcp-audit-x"⟩
      ⟨[chars "/t/instances/tcp-audit-x"], [], []⟩
      (chars "/t") (chars "sock/inet_sock_set_state") rfl rfl).1
    (by decide) (by decide) (by decide)

/-- C5, code_bug: evaluation of the cited main.go field parser
(422-472) at the claim's own inputs.  `nextField` returns a zero-length
token with no error when the separator sits at the cursor head, and
`getTaggedFields` records an empty value — instead of failing — when a
tag's `=` is immediately followed by a space or by the end of the
input: `foo= bar=baz` yields the map {bar:"baz", foo:""} and `foo=`
yields {foo:""}, both without error, contradicting the claim, spec
section 4.1 and the staged field_parser_test.go. -/
theorem c5_main_records_empty :
    mainNextField (chars "=x") (chars "=") true = .ok ([], chars "x", false)
    ∧ mainGetTaggedFields (chars "foo= bar=baz")
      = .ok [(chars "bar", chars "baz"), (chars "foo", [])]
    ∧ mainGetTaggedFields (chars "foo=") = .ok [(chars "foo", [])] := by
  refine ⟨by decide, by decide, by decide⟩

/-- C6, code_bug: evaluation of the cited main.go `nextField` (422-440)
at the claim's separator semantics.  With the two-byte separator `": "`
found, the cursor is advanced one byte only (`str[idx+1:]`), leaving
`" cd"` instead of `"cd"`; with the separator absent and more fields not
expected, the remainder is returned as the final token but the cursor is
left untouched (`"foo"`), not consumed to empty — contradicting the
claim, spec section 4.1 and the consumption assertion of the staged
TestGetTaggedFields. -/
theorem c6_main_cursor :
    mainNextField (chars "ab: cd") (chars ": ") true
      = .ok (chars "ab", chars " cd", false)
    ∧ mainNextField (chars "foo") (chars " ") false
      = .ok (chars "foo", chars "foo", true) := by
  refine ⟨by decide, by decide⟩

/-- C8, code_bug: evaluation of main.go `Event` after `Close`.  The
first call does return the closed sentinel, but main.go:105-107 returns
while `closedMutex` is still held (no Unlock on that path), so the
returned state has the lock held and the second call blocks forever —
contradicting the claim that every subsequent call returns the sentinel
and never blocks. -/
theorem c8_second_call_blocks (lines : List (List Char)) (scanErr : Bool) :
    (mainEventerEvent (mainEventerClose ⟨false, false, lines, scanErr⟩)).2
      = .res (.error .closedEventer)
    ∧ ((mainEventerEvent (mainEventerClose ⟨false, false, lines, scanErr⟩)).1).lockHeld
      = true
    ∧ (mainEventerEvent
        ((mainEventerEvent (mainEventerClose ⟨false, false, lines, scanErr⟩)).1)).2
      = .blocked :=
  ⟨rfl, rfl, rfl⟩

/-- The main.go read loop over a stream of empty lines: each is skipped
and the clean exhaustion is the unexpected-EOF anomaly. -/
lemma mainEventLoop_empty (lines : List (List Char))
    (h : ∀ l ∈ lines, l = []) :
    mainEventLoop false false lines = .error .unexpectedEOF := by
  induction lines with
  | nil => rfl
  | cons l t ih =>
    have hl := h l (by simp)
    subst hl
    simpa [mainEventLoop] using ih (fun x hx => h x (by simp [hx]))

/-- C9: when the line scanner reaches true end of stream with no
underlying read error and the eventer is not closed (and the mutex is
free, so the call proceeds), `Event` returns the `UnexpectedEndOfInput`
fault; it neither retries nor returns a nil event in this case.  In
main.go the loop reaches end of stream only across empty lines: any
non-empty line makes `Event` return first (an event, a parse error, or
— for an irrelevant line, the nil sentinel of main.go:28 — a nil event
with a nil error), so streams of empty lines are exactly the scope of
the claimed scenario. -/
theorem c9_unexpected_eof (lines : List (List Char))
    (h : ∀ l ∈ lines, l = []) :
    (mainEventerEvent ⟨false, false, lines, false⟩).2
      = .res (.error .unexpectedEOF) := by
  have hl := mainEventLoop_empty lines h
  simp [mainEventerEvent, hl]

/-- C9 witness: two empty lines are skipped and the clean end of stream
surfaces as the unexpected-EOF fault. -/
theorem c9_witness :
    (mainEventerEvent ⟨false, false, [[], []], false⟩).2
      = .res (.error .unexpectedEOF) :=
  c9_unexpected_eof [[], []] (by decide)

end TraceFS
